import Mathlib

/-!
Verification development for the health-v1 authorization and
secret-management core.  The definitions below are a shallow embedding of
the Rust sources: the Zanzibar relationship store and permission checker
(backend/shared/src/infrastructure/zanzibar), the encryption stack
(backend/shared/src/infrastructure/encryption) and the policy engine
(backend/rustyvault-service/src/modules/policy).  Timestamps and UUIDs are
modelled as naturals, byte strings as lists of naturals, and the Postgres
tables as in-memory lists of rows manipulated exactly as the SQL query
constants prescribe.
-/

namespace HealthV1

/-- Byte strings (Rust `Vec<u8>` / `&[u8]`) modelled as lists of naturals. -/
abbrev Bytes := List Nat

/-- Modelled from the spec: the shared error taxonomy of section 7
(`AppError` is declared outside the exported sources; only its callers
appear, using the constructors below with string payloads). -/
inductive AppError where
  | Authentication : String → AppError
  | Authorization : String → AppError
  | NotFound : String → AppError
  | Validation : String → AppError
  | Encryption : String → AppError
  | Storage : String → AppError
  | Database : String → AppError
  | Configuration : String → AppError
  | Internal : String → AppError
deriving DecidableEq, Repr

/-! ## Zanzibar relationship tuples
Embedding of `backend/shared/src/domain/entities/relationship.rs`. -/

/-- The relationship tuple entity (`struct Relationship`).  `metadata` is
opaque structured data, modelled as a string. -/
structure Relationship where
  id : Nat
  user : String
  relation : String
  object : String
  created_at : Nat
  valid_from : Option Nat
  expires_at : Option Nat
  is_active : Bool
  metadata : String
  deleted_at : Option Nat
  deleted_by : Option Nat
  request_id : Option String
  updated_at : Nat
  created_by : Option Nat
  updated_by : Option Nat
  system_id : Option String
  version : Int
deriving DecidableEq, Repr

/-- Embeds `Relationship::is_valid`; the wall clock `Utc::now()` is passed
explicitly as `now`. -/
def Relationship.is_valid (r : Relationship) (now : Nat) : Bool :=
  if r.deleted_at.isSome then false
  else if r.is_active = false then false
  else if (match r.valid_from with | some vf => decide (now < vf) | none => false) then false
  else if (match r.expires_at with | some e => decide (e ≤ now) | none => false) then false
  else true

/-- Embeds `Relationship::revoke`. -/
def Relationship.revoke (r : Relationship) (revoked_by : Option Nat) (now : Nat) : Relationship :=
  { r with is_active := false, deleted_at := some now, deleted_by := revoked_by,
           updated_at := now, version := r.version + 1 }

/-- Embeds `Relationship::soft_delete`. -/
def Relationship.soft_delete (r : Relationship) (deleted_by : Option Nat) (now : Nat) :
    Relationship :=
  { r with deleted_at := some now, deleted_by := deleted_by, is_active := false,
           updated_at := now, version := r.version + 1 }

/-- Embeds `Relationship::extend_expiration`. -/
def Relationship.extend_expiration (r : Relationship) (new_expires_at : Nat) (now : Nat) :
    Relationship :=
  { r with expires_at := some new_expires_at, updated_at := now, version := r.version + 1 }

/-! ## Relationship repository
Embedding of the SQL constants of
`backend/shared/src/infrastructure/database/queries/relationships.rs` and of
`relationship_repository_impl.rs`, over an in-memory list of rows. -/

abbrev RelationshipDb := List Relationship

/-- Embeds `RELATIONSHIP_FIND_BY_USER_OBJECT_RELATION` (used by
`find_by_user_object_relation` with `fetch_optional`): despite its
"(all)" doc comment the query carries `AND deleted_at IS NULL`. -/
def findByUserObjectRelation (db : RelationshipDb) (user object relation : String) :
    Option Relationship :=
  db.find? (fun r =>
    decide (r.user = user ∧ r.object = object ∧ r.relation = relation ∧ r.deleted_at = none))

/-- Embeds `RELATIONSHIP_FIND_BY_USER` (`find_by_user`): all rows of the
user, soft-deleted and expired ones included. -/
def findByUser (db : RelationshipDb) (user : String) : List Relationship :=
  db.filter (fun r => decide (r.user = user))

/-- Embeds the SET clause of `RELATIONSHIP_UPDATE`: the columns `user`,
`relation`, `object`, `created_at` and `created_by` are not updated, all
others are overwritten from the supplied entity. -/
def applyUpdateColumns (row r : Relationship) : Relationship :=
  { row with valid_from := r.valid_from, expires_at := r.expires_at, is_active := r.is_active,
             metadata := r.metadata, deleted_at := r.deleted_at, deleted_by := r.deleted_by,
             request_id := r.request_id, updated_at := r.updated_at, updated_by := r.updated_by,
             system_id := r.system_id, version := r.version }

/-- Embeds `RelationshipRepositoryImpl::update` running `RELATIONSHIP_UPDATE`
with `fetch_one`: the row is matched by `WHERE id = $1` alone (no version
predicate) and `version` is overwritten with the supplied value; `fetch_one`
on zero rows surfaces as a `Database` error.  Returns the new table and the
`RETURNING` row. -/
def repositoryUpdate (db : RelationshipDb) (r : Relationship) :
    Except AppError (RelationshipDb × Relationship) :=
  match db.find? (fun x => decide (x.id = r.id)) with
  | none => .error (.Database "no rows returned")
  | some x =>
      .ok (db.map (fun y => if y.id = r.id then applyUpdateColumns y r else y),
           applyUpdateColumns x r)

/-! ## Relationship store
Embedding of `backend/shared/src/infrastructure/zanzibar/relationship_store.rs`.
The organization argument of `check_with_organization` is `None` on the
`check` path, which falls back to `find_by_user_object_relation`. -/

/-- Embeds `RelationshipStore::check` (valid only if not expired/deleted). -/
def RelationshipStore.check (db : RelationshipDb) (now : Nat)
    (user relation object : String) : Bool :=
  match findByUserObjectRelation db user object relation with
  | some r => r.is_valid now
  | none => false

/-- Embeds `RelationshipStore::get_valid_relationships`: all rows of the
user filtered by `is_valid`. -/
def RelationshipStore.get_valid_relationships (db : RelationshipDb) (now : Nat)
    (user : String) : List Relationship :=
  (findByUser db user).filter (fun r => r.is_valid now)

/-- Embeds `RelationshipStore::soft_delete`: look the tuple up, apply the
entity-level soft delete, write it back; missing tuple is a successful
no-op. -/
def RelationshipStore.soft_delete (db : RelationshipDb) (now : Nat)
    (user relation object : String) (deleted_by : Option Nat) :
    Except AppError RelationshipDb :=
  match findByUserObjectRelation db user object relation with
  | none => .ok db
  | some rel =>
      match repositoryUpdate db (rel.soft_delete deleted_by now) with
      | .error e => .error e
      | .ok (db2, _) => .ok db2

/-- Embeds `RelationshipStore::revoke`. -/
def RelationshipStore.revoke (db : RelationshipDb) (now : Nat)
    (user relation object : String) (revoked_by : Option Nat) :
    Except AppError RelationshipDb :=
  match findByUserObjectRelation db user object relation with
  | none => .ok db
  | some rel =>
      match repositoryUpdate db (rel.revoke revoked_by now) with
      | .error e => .error e
      | .ok (db2, _) => .ok db2

/-! ## Permission checker
Embedding of `backend/shared/src/infrastructure/zanzibar/checker.rs`.  The
early returns of the Rust loops become short-circuit boolean disjunctions;
the backing store is pure, so the `AppResult` layer never errors. -/

/-- Embeds `PermissionChecker::check`: direct, role, group and group-role
paths, union semantics. -/
def PermissionChecker.check (db : RelationshipDb) (now : Nat)
    (user relation object : String) : Bool :=
  RelationshipStore.check db now user relation object ||
  (let userRels := RelationshipStore.get_valid_relationships db now user
   userRels.any (fun rel =>
     rel.relation == "has_role" && RelationshipStore.check db now rel.object relation object) ||
   userRels.any (fun rel =>
     rel.relation == "member" &&
       (RelationshipStore.check db now rel.object relation object ||
        (RelationshipStore.get_valid_relationships db now rel.object).any (fun g =>
          g.relation == "has_role" &&
          RelationshipStore.check db now g.object relation object))))

/-- Embeds `PermissionChecker::get_all_permissions`; a `HashSet` of pairs is
modelled as a list with membership up to duplicates. -/
def PermissionChecker.get_all_permissions (db : RelationshipDb) (now : Nat)
    (user : String) : List (String × String) :=
  let userRels := RelationshipStore.get_valid_relationships db now user
  (userRels.filter (fun r => !(r.relation == "member") && !(r.relation == "has_role"))).map
      (fun r => (r.relation, r.object)) ++
  (userRels.filter (fun r => r.relation == "has_role")).flatMap (fun rel =>
    (RelationshipStore.get_valid_relationships db now rel.object).map
      (fun rr => (rr.relation, rr.object))) ++
  (userRels.filter (fun r => r.relation == "member")).flatMap (fun rel =>
    let groupRels := RelationshipStore.get_valid_relationships db now rel.object
    (groupRels.filter (fun g => !(g.relation == "has_role"))).map
        (fun g => (g.relation, g.object)) ++
    (groupRels.filter (fun g => g.relation == "has_role")).flatMap (fun g =>
      (RelationshipStore.get_valid_relationships db now g.object).map
        (fun rr => (rr.relation, rr.object))))

/-- The database invariant behind the partial unique index of the
relationships table: at most one non-deleted row per
`(subject, relation, object)` key (spec section 6, "conditional uniqueness
constraint ... restricted to non-deleted rows"). -/
def WellFormed (db : RelationshipDb) : Prop :=
  ∀ t1 ∈ db, ∀ t2 ∈ db, t1.deleted_at = none → t2.deleted_at = none →
    t1.user = t2.user → t1.relation = t2.relation → t1.object = t2.object → t1 = t2

instance (db : RelationshipDb) : Decidable (WellFormed db) := by
  unfold WellFormed; infer_instance

/-- A valid tuple `user:1 -can_view-> page:dash`, used by concrete witnesses. -/
def sampleGrant : Relationship :=
  { id := 1, user := "user:1", relation := "can_view", object := "page:dash",
    created_at := 0, valid_from := none, expires_at := none, is_active := true,
    metadata := "", deleted_at := none, deleted_by := none, request_id := none,
    updated_at := 0, created_by := none, updated_by := none, system_id := none,
    version := 1 }

/-- A stored row with version 5, used to exhibit the missing version check. -/
def versionRow : Relationship := { sampleGrant with id := 2, version := 5 }

/-- An update payload for the same row carrying version 99, which matches
neither the stored version nor stored version + 1. -/
def versionSupplied : Relationship := { versionRow with version := 99 }

/-- The result row of soft deleting `sampleGrant` at time 7. -/
def sampleGrantDeleted : Relationship :=
  { sampleGrant with deleted_at := some 7, is_active := false, updated_at := 7, version := 2 }

/-- A valid membership tuple `user:1 -member-> group:g`. -/
def memberEdge : Relationship :=
  { sampleGrant with id := 3, relation := "member", object := "group:g" }

/-! ## Encryption stack
Embedding of `backend/shared/src/infrastructure/encryption`: the DEK manager
(`dek_manager.rs`), master-key rotation (`master_key_rotation.rs`) and the
service encryption context (`service_encryption.rs`).  Random values (fresh
DEKs and nonces) are passed as explicit arguments; the vault is explicit
state. -/

/-- Modelled from the spec: the master key holder of section 4.B (a 256-bit
value; `master_key.rs` is outside the exported sources, its callers use
`.key()`). -/
structure MasterKey where
  key : Bytes
deriving DecidableEq, Repr

/-- Modelled from the spec: the Vault interface of section 4.A - opaque
wrapped-DEK blobs keyed by entity, plus one master-key slot (`vault.rs` is
outside the exported sources; the DEK manager calls
`store_dek(entity_id, entity_type, bytes)` and `get_dek(entity_id,
entity_type)`). -/
structure VaultState where
  deks : List ((Nat × String) × Bytes)
  master_key_slot : Option Bytes
deriving DecidableEq, Repr

/-- Vault lookup of a wrapped DEK; absence is not an error. -/
def VaultState.getDekRaw (v : VaultState) (entity_id : Nat) (entity_type : String) :
    Option Bytes :=
  (v.deks.find? (fun e => decide (e.1 = (entity_id, entity_type)))).map (fun e => e.2)

/-- Vault write of a wrapped DEK (writes or overwrites). -/
def VaultState.storeDek (v : VaultState) (entity_id : Nat) (entity_type : String)
    (wrapped : Bytes) : VaultState :=
  { v with deks :=
      if (v.deks.find? (fun e => decide (e.1 = (entity_id, entity_type)))).isSome then
        v.deks.map (fun e => if e.1 = (entity_id, entity_type) then (e.1, wrapped) else e)
      else v.deks ++ [((entity_id, entity_type), wrapped)] }

/-- An AEAD cipher (AES-256-GCM in the source), abstracted as encryption and
decryption functions over key, nonce and message together with the
round-trip law of authenticated encryption. -/
structure Aead where
  enc : Bytes → Bytes → Bytes → Bytes
  dec : Bytes → Bytes → Bytes → Option Bytes
  dec_enc : ∀ k n p, dec k n (enc k n p) = some p

/-- Embeds `DekManager::encrypt_dek`: wrap the DEK under the master key and
prepend the 96-bit nonce; `new_from_slice` rejects keys that are not 32
bytes. -/
def DekManager.encrypt_dek (A : Aead) (mk : MasterKey) (wrapNonce dek : Bytes) :
    Except AppError Bytes :=
  if mk.key.length ≠ 32 then .error (.Encryption "Invalid master key")
  else .ok (wrapNonce ++ A.enc mk.key wrapNonce dek)

/-- Embeds `DekManager::decrypt_dek`: the first 12 bytes are the nonce, the
rest the ciphertext. -/
def DekManager.decrypt_dek (A : Aead) (mk : MasterKey) (encrypted_dek : Bytes) :
    Except AppError Bytes :=
  if encrypted_dek.length < 12 then .error (.Encryption "Invalid encrypted DEK format")
  else if mk.key.length ≠ 32 then .error (.Encryption "Invalid master key")
  else
    match A.dec mk.key (encrypted_dek.take 12) (encrypted_dek.drop 12) with
    | some dek => .ok dek
    | none => .error (.Encryption "DEK decryption failed")

/-- Embeds `DekManager::get_dek`: fetch the wrapped DEK and unwrap it with
the master key; a missing slot yields `None`, not an error. -/
def DekManager.get_dek (A : Aead) (mk : MasterKey) (vault : VaultState)
    (entity_id : Nat) (entity_type : String) : Except AppError (Option Bytes) :=
  match vault.getDekRaw entity_id entity_type with
  | none => .ok none
  | some encrypted =>
      match DekManager.decrypt_dek A mk encrypted with
      | .error e => .error e
      | .ok dek => .ok (some dek)

/-- Embeds `DekManager::generate_dek`; the freshly generated 256-bit DEK and
the wrapping nonce are explicit arguments standing for the random draws. -/
def DekManager.generate_dek (A : Aead) (mk : MasterKey) (vault : VaultState)
    (freshDek wrapNonce : Bytes) (entity_id : Nat) (entity_type : String) :
    Except AppError (Bytes × VaultState) :=
  match DekManager.encrypt_dek A mk wrapNonce freshDek with
  | .error e => .error e
  | .ok wrapped => .ok (freshDek, vault.storeDek entity_id entity_type wrapped)

/-- Embeds `DekManager::get_or_create_dek`. -/
def DekManager.get_or_create_dek (A : Aead) (mk : MasterKey) (vault : VaultState)
    (freshDek wrapNonce : Bytes) (entity_id : Nat) (entity_type : String) :
    Except AppError (Bytes × VaultState) :=
  match DekManager.get_dek A mk vault entity_id entity_type with
  | .error e => .error e
  | .ok (some dek) => .ok (dek, vault)
  | .ok none => DekManager.generate_dek A mk vault freshDek wrapNonce entity_id entity_type

/-- Embeds `DekManager::get_realm_dek`: the scoped entity type is
`realm/<realm_id>`. -/
def DekManager.get_realm_dek (A : Aead) (mk : MasterKey) (vault : VaultState)
    (freshDek wrapNonce : Bytes) (realm_id : String) (realm_uuid : Nat) :
    Except AppError (Bytes × VaultState) :=
  DekManager.get_or_create_dek A mk vault freshDek wrapNonce realm_uuid
    ("realm/" ++ realm_id)

/-- Embeds `DekManager::encrypt`: fetch the entity DEK (error when absent)
and AES-GCM encrypt `data` under a fresh nonce, returned alongside. -/
def DekManager.encrypt (A : Aead) (mk : MasterKey) (vault : VaultState)
    (entity_id : Nat) (entity_type : String) (dataNonce data : Bytes) :
    Except AppError (Bytes × Bytes) :=
  match DekManager.get_dek A mk vault entity_id entity_type with
  | .error e => .error e
  | .ok none => .error (.Encryption "DEK not found")
  | .ok (some dek) =>
      if dek.length ≠ 32 then .error (.Encryption "Invalid DEK")
      else .ok (A.enc dek dataNonce data, dataNonce)

/-- Embeds `DekManager::decrypt`. -/
def DekManager.decrypt (A : Aead) (mk : MasterKey) (vault : VaultState)
    (entity_id : Nat) (entity_type : String) (ciphertext nonce : Bytes) :
    Except AppError Bytes :=
  match DekManager.get_dek A mk vault entity_id entity_type with
  | .error e => .error e
  | .ok none => .error (.Encryption "DEK not found")
  | .ok (some dek) =>
      if dek.length ≠ 32 then .error (.Encryption "Invalid DEK")
      else
        match A.dec dek nonce ciphertext with
        | some pt => .ok pt
        | none => .error (.Encryption "Decryption failed")

/-- Embeds `RotationResult` of `master_key_rotation.rs`. -/
structure RotationResult where
  rotated_count : Nat
  errors : List String
deriving DecidableEq, Repr

/-- The entity-type list hard-coded in `rotate_master_key`. -/
def rotationEntityTypes : List String := ["user", "organization", "patient", "document"]

/-- Embeds `MasterKeyRotation::rotate_master_key`: the loop over the entity
types has an empty body (comments only), so nothing is read, unwrapped,
re-wrapped or written back, `rotated_count` is never incremented and no
error is recorded. -/
def rotate_master_key (vault : VaultState) (_old_master_key _new_master_key : MasterKey) :
    VaultState × RotationResult :=
  let st := rotationEntityTypes.foldl
    (fun (acc : VaultState × Nat × List String) _entity_type => acc)
    (vault, 0, [])
  (st.1, { rotated_count := st.2.1, errors := st.2.2 })

/-- Embeds the age passphrase cipher used by
`ServiceEncryption::encrypt_with_dek` / `decrypt_with_dek`, abstracted as a
keyed encryption scheme (key and message). -/
structure AgeCipher where
  enc : Bytes → Bytes → Bytes
  dec : Bytes → Bytes → Option Bytes

/-- Embeds the `ServiceEncryption` context: a service identity plus an
allow-list of realms. -/
structure ServiceEncryption where
  service_id : String
  service_uuid : Nat
  allowed_realms : List String
deriving DecidableEq, Repr

/-- Embeds `ServiceEncryption::has_realm_access`. -/
def ServiceEncryption.has_realm_access (se : ServiceEncryption) (realm_id : String) : Bool :=
  se.allowed_realms.any (fun r => r == realm_id)

/-- Embeds `ServiceEncryption::get_realm_dek`: `Authorization` failure when
the realm is not allow-listed, otherwise delegate to the DEK manager. -/
def ServiceEncryption.get_realm_dek (A : Aead) (mk : MasterKey) (vault : VaultState)
    (se : ServiceEncryption) (freshDek wrapNonce : Bytes) (realm_id : String)
    (realm_uuid : Nat) : Except AppError (Bytes × VaultState) :=
  if se.has_realm_access realm_id = false then
    .error (.Authorization ("Service '" ++ se.service_id ++
      "' not authorized to access realm '" ++ realm_id ++ "'"))
  else
    DekManager.get_realm_dek A mk vault freshDek wrapNonce realm_id realm_uuid

/-- Embeds `ServiceEncryption::encrypt_for_realm`. -/
def ServiceEncryption.encrypt_for_realm (A : Aead) (age : AgeCipher) (mk : MasterKey)
    (vault : VaultState) (se : ServiceEncryption) (freshDek wrapNonce : Bytes)
    (realm_id : String) (realm_uuid : Nat) (data : Bytes) :
    Except AppError (Bytes × VaultState) :=
  match ServiceEncryption.get_realm_dek A mk vault se freshDek wrapNonce realm_id realm_uuid with
  | .error e => .error e
  | .ok (dek, vault2) => .ok (age.enc dek data, vault2)

/-- Embeds `ServiceEncryption::decrypt_from_realm`; an age decryption
failure surfaces as an `Encryption` error. -/
def ServiceEncryption.decrypt_from_realm (A : Aead) (age : AgeCipher) (mk : MasterKey)
    (vault : VaultState) (se : ServiceEncryption) (freshDek wrapNonce : Bytes)
    (realm_id : String) (realm_uuid : Nat) (encrypted : Bytes) :
    Except AppError (Bytes × VaultState) :=
  match ServiceEncryption.get_realm_dek A mk vault se freshDek wrapNonce realm_id realm_uuid with
  | .error e => .error e
  | .ok (dek, vault2) =>
      match age.dec dek encrypted with
      | some pt => .ok (pt, vault2)
      | none => .error (.Encryption "Failed to decrypt")

/-- The identity AEAD instance used by concrete witnesses. -/
def idAead : Aead where
  enc := fun _ _ p => p
  dec := fun _ _ c => some c
  dec_enc := fun _ _ _ => rfl

/-- A 32-byte master key for witnesses. -/
def mk0 : MasterKey := ⟨List.replicate 32 0⟩

/-- A 32-byte DEK for witnesses. -/
def dek0 : Bytes := List.replicate 32 1

/-- `dek0` wrapped in the vault format: 12-byte nonce followed by the
(identity-)ciphertext. -/
def wrapped0 : Bytes := List.replicate 12 0 ++ dek0

/-- A vault holding one wrapped DEK for entity `(7, "user")`. -/
def vault0 : VaultState := ⟨[((7, "user"), wrapped0)], none⟩

/-- A service allowed to access realm `A` only. -/
def se0 : ServiceEncryption := ⟨"svc", 1, ["A"]⟩

/-- The identity age cipher used by concrete witnesses. -/
def age0 : AgeCipher := ⟨fun _ d => d, fun _ c => some c⟩

/-! ## Policy engine
Embedding of `backend/rustyvault-service/src/modules/policy` (`policy.rs`,
`acl.rs`, `policy_store.rs`) and the pieces of `errors.rs` and
`logical/request.rs` they use.  JSON parameter values are opaque strings;
the radix tries are association lists whose insert replaces an existing
key. -/

/-- Embeds the `VaultError` enum of `errors.rs` (string payloads; the
spec's `PolicyConflict` kind is realised by `VaultError::Vault` carrying the
conflict message). -/
inductive VaultError where
  | Vault : String → VaultError
  | Seal : String → VaultError
  | Unseal : String → VaultError
  | Barrier : String → VaultError
  | Database : String → VaultError
  | Storage : String → VaultError
  | Auth : String → VaultError
  | Authorization : String → VaultError
  | Config : String → VaultError
  | Encryption : String → VaultError
  | Validation : String → VaultError
  | NotFound : String → VaultError
  | Serialization : String → VaultError
deriving DecidableEq, Repr

/-- Embeds `PolicyType`. -/
inductive PolicyType where
  | Acl
  | Rgp
  | Egp
  | Token
deriving DecidableEq, Repr

/-- Embeds `Operation` of `logical/request.rs`. -/
inductive Operation where
  | Read
  | Write
  | Delete
  | List
deriving DecidableEq, Repr

/-- Embeds `Request`; `data` and `headers` are opaque to the ACL. -/
structure Request where
  id : String
  operation : Operation
  path : String
  client_token : String
  data : Option String
  headers : List (String × String)
deriving DecidableEq, Repr

/-- Embeds `Capability`. -/
inductive Capability where
  | Deny
  | Create
  | Read
  | Update
  | Delete
  | List
  | Sudo
  | Patch
  | Root
deriving DecidableEq, Repr

/-- Embeds `Capability::to_bits`. -/
def Capability.toBits : Capability → Nat
  | .Deny => 1
  | .Create => 2
  | .Read => 4
  | .Update => 8
  | .Delete => 16
  | .List => 32
  | .Sudo => 64
  | .Patch => 128
  | .Root => 256

/-- Embeds `Permissions`; parameter maps are association lists with opaque
JSON values, wrapping TTLs are in seconds. -/
structure Permissions where
  capabilities_bitmap : Nat
  min_wrapping_ttl : Nat
  max_wrapping_ttl : Nat
  allowed_parameters : List (String × List String)
  denied_parameters : List (String × List String)
  required_parameters : List String
deriving DecidableEq, Repr

/-- The empty permission set (`Permissions::default`). -/
def Permissions.empty : Permissions := ⟨0, 0, 0, [], [], []⟩

/-- Embeds `Permissions::check_operation`. -/
def Permissions.check_operation (p : Permissions) (operation : Operation) : Bool :=
  if p.capabilities_bitmap &&& Capability.Deny.toBits ≠ 0 then false
  else
    let requiredCap :=
      match operation with
      | .Read => Capability.Read
      | .Write => Capability.Update
      | .Delete => Capability.Delete
      | .List => Capability.List
    if p.capabilities_bitmap &&& requiredCap.toBits ≠ 0 then true
    else if operation = .Write ∧ p.capabilities_bitmap &&& Capability.Create.toBits ≠ 0 then
      true
    else false

/-- Embeds `Permissions::has_root_privs`. -/
def Permissions.has_root_privs (p : Permissions) : Bool :=
  p.capabilities_bitmap &&& Capability.Sudo.toBits ≠ 0

/-- `HashMap::entry(k).or_default().extend(vs)` over an association list. -/
def mergeParams (mine other : List (String × List String)) : List (String × List String) :=
  other.foldl (fun acc kv =>
    if (acc.find? (fun e => e.1 == kv.1)).isSome then
      acc.map (fun e => if e.1 == kv.1 then (e.1, e.2 ++ kv.2) else e)
    else acc ++ [kv]) mine

/-- Embeds `Permissions::merge`: deny on either side dominates; otherwise
the bitmaps union, the TTLs tighten and the parameter rules merge. -/
def Permissions.merge (p other : Permissions) : Permissions :=
  let deny := Capability.Deny.toBits
  if p.capabilities_bitmap &&& deny ≠ 0 then p
  else if other.capabilities_bitmap &&& deny ≠ 0 then
    { p with capabilities_bitmap := deny, allowed_parameters := [], denied_parameters := [] }
  else
    { capabilities_bitmap := p.capabilities_bitmap ||| other.capabilities_bitmap,
      max_wrapping_ttl :=
        if other.max_wrapping_ttl > 0 ∧
            (p.max_wrapping_ttl = 0 ∨ other.max_wrapping_ttl < p.max_wrapping_ttl) then
          other.max_wrapping_ttl
        else p.max_wrapping_ttl,
      min_wrapping_ttl :=
        if other.min_wrapping_ttl > 0 ∧
            (p.min_wrapping_ttl = 0 ∨ other.min_wrapping_ttl > p.min_wrapping_ttl) then
          other.min_wrapping_ttl
        else p.min_wrapping_ttl,
      allowed_parameters := mergeParams p.allowed_parameters other.allowed_parameters,
      denied_parameters := mergeParams p.denied_parameters other.denied_parameters,
      required_parameters := other.required_parameters.foldl
        (fun acc param => if acc.contains param then acc else acc ++ [param])
        p.required_parameters }

/-- Embeds `PolicyPathRules`; the source fields `is_prefix` and
`has_segment_wildcards` are `isPrefixRule` and `hasSegmentWildcards`. -/
structure PolicyPathRules where
  path : String
  permissions : Permissions
  capabilities : List Capability
  isPrefixRule : Bool
  hasSegmentWildcards : Bool
deriving DecidableEq, Repr

/-- Embeds `Policy`. -/
structure Policy where
  name : String
  raw : String
  policy_type : PolicyType
  templated : Bool
  paths : List PolicyPathRules
deriving DecidableEq, Repr

/-- Embeds `ACLResults`. -/
structure ACLResults where
  allowed : Bool
  root_privs : Bool
  is_root : Bool
  capabilities_bitmap : Nat
  granting_policies : List String
deriving DecidableEq, Repr

/-- `ACLResults::default`. -/
def ACLResults.empty : ACLResults := ⟨false, false, false, 0, []⟩

/-- Embeds `ACL`; both radix tries are association lists. -/
structure ACL where
  exactRules : List (String × Permissions)
  prefixRules : List (String × Permissions)
  segmentWildcardPaths : List (String × Permissions × Bool)
  root : Bool
deriving DecidableEq, Repr

/-- `ACL::default`. -/
def ACL.empty : ACL := ⟨[], [], [], false⟩

/-- `Trie::insert`: replace the value of an existing key, or add the key. -/
def trieInsert (t : List (String × Permissions)) (k : String) (v : Permissions) :
    List (String × Permissions) :=
  if (t.find? (fun e => e.1 == k)).isSome then
    t.map (fun e => if e.1 == k then (e.1, v) else e)
  else t ++ [(k, v)]

/-- Embeds `ACL::get_permissions`. -/
def ACL.get_permissions (acl : ACL) (pr : PolicyPathRules) : Option Permissions :=
  if pr.hasSegmentWildcards then
    (acl.segmentWildcardPaths.find? (fun e =>
      e.1 == pr.path && e.2.2 == pr.isPrefixRule)).map (fun e => e.2.1)
  else if pr.isPrefixRule then
    (acl.prefixRules.find? (fun e => e.1 == pr.path)).map (fun e => e.2)
  else
    (acl.exactRules.find? (fun e => e.1 == pr.path)).map (fun e => e.2)

/-- Embeds `ACL::insert_permissions`. -/
def ACL.insert_permissions (acl : ACL) (pr : PolicyPathRules) (perms : Permissions) : ACL :=
  if pr.hasSegmentWildcards then
    { acl with segmentWildcardPaths :=
        if (acl.segmentWildcardPaths.find? (fun e =>
            e.1 == pr.path && e.2.2 == pr.isPrefixRule)).isSome then
          acl.segmentWildcardPaths.map (fun e =>
            if e.1 == pr.path && e.2.2 == pr.isPrefixRule then (e.1, perms, e.2.2) else e)
        else acl.segmentWildcardPaths ++ [(pr.path, perms, pr.isPrefixRule)] }
  else if pr.isPrefixRule then
    { acl with prefixRules := trieInsert acl.prefixRules pr.path perms }
  else
    { acl with exactRules := trieInsert acl.exactRules pr.path perms }

/-- The per-policy path-rule loop of `ACL::new`: merge into any existing
rule for the same path (skipping if it is already denied). -/
def ACL.insertPolicyPaths (acl : ACL) (prs : List PolicyPathRules) : ACL :=
  prs.foldl (fun acl pr =>
    match ACL.get_permissions acl pr with
    | some existing_perms =>
        if existing_perms.capabilities_bitmap &&& Capability.Deny.toBits ≠ 0 then acl
        else ACL.insert_permissions acl pr (Permissions.merge existing_perms pr.permissions)
    | none => ACL.insert_permissions acl pr pr.permissions) acl

/-- The policy loop of `ACL::new`; `total` is `policies.len()` of the whole
input, against which the root-exclusivity check compares. -/
def ACL.newLoop (total : Nat) : ACL → List Policy → Except VaultError ACL
  | acl, [] => .ok acl
  | acl, p :: rest =>
      if p.policy_type ≠ .Acl ∧ p.policy_type ≠ .Token then
        .error (.Vault "unable to parse policy (wrong type)")
      else if p.name = "root" then
        if total ≠ 1 then .error (.Vault "other policies present along with root")
        else .ok { acl with root := true }
      else ACL.newLoop total (ACL.insertPolicyPaths acl p.paths) rest

/-- Embeds `ACL::new`. -/
def ACL.new (policies : List Policy) : Except VaultError ACL :=
  ACL.newLoop policies.length ACL.empty policies

/-- Embeds `ensure_no_leading_slash` (`trim_start_matches('/')`). -/
def ensure_no_leading_slash (path : String) : String :=
  path.dropWhile (fun c => c == '/')

/-- Embeds `ACL::get_prefix_permissions`
(`radix_trie::get_ancestor_value`): the longest stored key that is a
prefix of the request path. -/
def ACL.get_prefix_permissions (acl : ACL) (path : String) : Option Permissions :=
  ((acl.prefixRules.filter (fun e => e.1.isPrefixOf path)).foldl
    (fun best e =>
      match best with
      | none => some e
      | some b => if e.1.length > b.1.length then some e else some b) none).map
    (fun e => e.2)

/-- The per-segment matching loop of `ACL::get_wildcard_permissions`: `+`
scores 1, an equal segment 10, a prefix match on the final pattern segment
5; any other segment fails the pattern. -/
def wcScore (isPref : Bool) : List String → List String → Option Nat
  | [], _ => some 0
  | _ :: _, [] => none
  | wc :: wcs, pp :: pps =>
      if wc = "+" then (wcScore isPref wcs pps).map (fun n => n + 1)
      else if wc = pp then (wcScore isPref wcs pps).map (fun n => n + 10)
      else if isPref ∧ wcs = [] ∧ wc.isPrefixOf pp then some 5
      else none

/-- Embeds `ACL::get_wildcard_permissions`: the matching pattern with the
greatest specificity wins, first insertion winning ties. -/
def ACL.get_wildcard_permissions (acl : ACL) (path : String) : Option Permissions :=
  let pathParts := path.splitOn "/"
  (acl.segmentWildcardPaths.foldl
    (fun (best : Option Permissions × Nat) e =>
      let wcParts := e.1.splitOn "/"
      if ¬ e.2.2 ∧ wcParts.length ≠ pathParts.length then best
      else if wcParts.length > pathParts.length then best
      else
        match wcScore e.2.2 wcParts pathParts with
        | none => best
        | some spec => if spec > best.2 then (some e.2.1, spec) else best)
    (none, 0)).1

/-- Embeds `ACL::check_permissions` (which never errors). -/
def ACL.check_permissions (perms : Permissions) (req : Request) (check_only : Bool) :
    ACLResults :=
  let base : ACLResults :=
    { ACLResults.empty with root_privs := perms.has_root_privs }
  if check_only then { base with capabilities_bitmap := perms.capabilities_bitmap }
  else if perms.check_operation req.operation then
    { base with allowed := true, capabilities_bitmap := perms.capabilities_bitmap }
  else base

/-- Embeds `ACL::allow_operation`. -/
def ACL.allow_operation (acl : ACL) (req : Request) (check_only : Bool) :
    Except VaultError ACLResults :=
  if acl.root then
    .ok { allowed := true, root_privs := true, is_root := true,
          capabilities_bitmap := 0, granting_policies := ["root"] }
  else
    let path := ensure_no_leading_slash req.path
    match acl.exactRules.find? (fun e => e.1 == path) with
    | some e => .ok (ACL.check_permissions e.2 req check_only)
    | none =>
        match (if req.operation = .List then
                 acl.exactRules.find? (fun e => e.1 == path.dropRightWhile (fun c => c == '/'))
               else none) with
        | some e => .ok (ACL.check_permissions e.2 req check_only)
        | none =>
            match acl.get_prefix_permissions path with
            | some perms => .ok (ACL.check_permissions perms req check_only)
            | none =>
                match acl.get_wildcard_permissions path with
                | some perms => .ok (ACL.check_permissions perms req check_only)
                | none => .ok ACLResults.empty

/-! ## Policy store
Embedding of `policy_store.rs`; the Postgres `vault_policies` table and the
in-memory cache are explicit state. -/

/-- Embeds `IMMUTABLE_POLICIES`. -/
def IMMUTABLE_POLICIES : List String := ["root", "default"]

/-- Embeds `PolicyStore::sanitize_name` (`to_lowercase().trim()`): lowercase
every character, then strip leading and trailing whitespace (spelled out
over the character list). -/
def sanitize_name (name : String) : String :=
  String.mk ((((name.data.map Char.toLower).dropWhile Char.isWhitespace).reverse.dropWhile
    Char.isWhitespace).reverse)

/-- A row of the `vault_policies` table (columns written by the upsert of
`set_policy_internal`). -/
structure PolicyRow where
  name : String
  policy_text : String
  policy_type : String
  raw_policy : String
deriving DecidableEq, Repr

/-- The policy store state: table plus write-through cache. -/
structure PolicyStoreState where
  db : List PolicyRow
  cache : List (String × Policy)
deriving DecidableEq, Repr

/-- Embeds `PolicyType`'s `Display`. -/
def PolicyType.toStr : PolicyType → String
  | .Acl => "acl"
  | .Rgp => "rgp"
  | .Egp => "egp"
  | .Token => "token"

/-- Embeds `PolicyStore::set_policy_internal`: default the raw text when
empty, upsert the row keyed by name, refresh the cache (entry serialization
is infallible here, so the operation always succeeds). -/
def set_policy_internal (st : PolicyStoreState) (p : Policy) :
    Except VaultError PolicyStoreState :=
  let raw_policy :=
    if p.raw = "" then
      "\x7b\"name\": \"" ++ p.name ++ "\", \"path\": \x7b\x7d\x7d"
    else p.raw
  let row : PolicyRow := ⟨p.name, raw_policy, p.policy_type.toStr, raw_policy⟩
  let db2 :=
    if (st.db.find? (fun r => r.name == p.name)).isSome then
      st.db.map (fun r => if r.name == p.name then row else r)
    else st.db ++ [row]
  let cache2 :=
    if (st.cache.find? (fun e => e.1 == p.name)).isSome then
      st.cache.map (fun e => if e.1 == p.name then (e.1, p) else e)
    else st.cache ++ [(p.name, p)]
  .ok { db := db2, cache := cache2 }

/-- Embeds `PolicyStore::set_policy`: names in the immutable set other than
`default` are rejected before the write. -/
def PolicyStore.set_policy (st : PolicyStoreState) (p : Policy) :
    Except VaultError PolicyStoreState :=
  let name := sanitize_name p.name
  if name = "" then .error (.Vault "policy name missing")
  else if IMMUTABLE_POLICIES.contains name ∧ name ≠ "default" then
    .error (.Vault ("cannot update " ++ name ++ " policy"))
  else set_policy_internal st { p with name := name }

/-- Embeds `PolicyStore::delete_policy`: every immutable name is rejected. -/
def PolicyStore.delete_policy (st : PolicyStoreState) (name : String) :
    Except VaultError PolicyStoreState :=
  let name := sanitize_name name
  if IMMUTABLE_POLICIES.contains name then
    .error (.Vault ("cannot delete " ++ name ++ " policy"))
  else
    .ok { db := st.db.filter (fun r => !(r.name == name)),
          cache := st.cache.filter (fun e => !(e.1 == name)) }

/-- An empty `default`-named policy (as a caller would submit to
`set_policy`). -/
def defaultPolicy0 : Policy := ⟨"default", "", .Acl, false, []⟩

/-- A policy-store state in which the `default` policy is already seeded -
any further mutation of it is past the initial seeding. -/
def policyState0 : PolicyStoreState := ⟨[⟨"default", "d", "acl", "d"⟩], []⟩

/-- The in-memory marker policy named `root` (`Policy::default` with the
name set, as the store synthesizes it). -/
def rootMarkerPolicy : Policy := ⟨"root", "", .Acl, false, []⟩

/-- An unrelated ACL policy used alongside `root` in compilations. -/
def otherAclPolicy : Policy := ⟨"other", "", .Acl, false, []⟩

/-- A relationship that passes `is_valid` is in particular not soft deleted. -/
lemma Relationship.not_deleted_of_is_valid {r : Relationship} {now : Nat}
    (h : r.is_valid now = true) : r.deleted_at = none := by
  by_contra hne
  have hsome : r.deleted_at.isSome = true := by
    cases hd : r.deleted_at with
    | none => exact absurd hd hne
    | some v => rfl
  simp [Relationship.is_valid, hsome] at h

/-- Characterisation of the store-level direct check under the uniqueness
invariant: true exactly when a matching valid tuple is in the table. -/
lemma storeCheck_iff {db : RelationshipDb} (hwf : WellFormed db) (now : Nat)
    (u r o : String) :
    RelationshipStore.check db now u r o = true ↔
      ∃ t ∈ db, t.user = u ∧ t.relation = r ∧ t.object = o ∧ t.is_valid now = true := by
  constructor
  · intro h
    unfold RelationshipStore.check at h
    cases hfind : findByUserObjectRelation db u o r with
    | none => rw [hfind] at h; simp at h
    | some t =>
        rw [hfind] at h
        have hmem := List.mem_of_find?_eq_some hfind
        have hpred := List.find?_some hfind
        simp only [decide_eq_true_eq] at hpred
        exact ⟨t, hmem, hpred.1, hpred.2.2.1, hpred.2.1, h⟩
  · rintro ⟨t, hmem, hu, hr, ho, hv⟩
    have hnd : t.deleted_at = none := Relationship.not_deleted_of_is_valid hv
    have hpred : (fun x : Relationship =>
        decide (x.user = u ∧ x.object = o ∧ x.relation = r ∧ x.deleted_at = none)) t = true := by
      simp [hu, hr, ho, hnd]
    have hex : ∃ x ∈ db, (fun x : Relationship =>
        decide (x.user = u ∧ x.object = o ∧ x.relation = r ∧ x.deleted_at = none)) x = true :=
      ⟨t, hmem, hpred⟩
    rw [← List.find?_isSome] at hex
    cases hfind : db.find? (fun x : Relationship =>
        decide (x.user = u ∧ x.object = o ∧ x.relation = r ∧ x.deleted_at = none)) with
    | none => rw [hfind] at hex; simp at hex
    | some t2 =>
        have hmem2 := List.mem_of_find?_eq_some hfind
        have hpred2 := List.find?_some hfind
        simp only [decide_eq_true_eq] at hpred2
        have heq : t2 = t :=
          hwf t2 hmem2 t hmem hpred2.2.2.2 hnd (hpred2.1.trans hu.symm)
            (hpred2.2.2.1.trans hr.symm) (hpred2.2.1.trans ho.symm)
        unfold RelationshipStore.check findByUserObjectRelation
        rw [hfind, heq]
        exact hv

/-- Membership in the valid-family query. -/
lemma mem_get_valid {db : RelationshipDb} {now : Nat} {u : String} {r : Relationship} :
    r ∈ RelationshipStore.get_valid_relationships db now u ↔
      r ∈ db ∧ r.user = u ∧ r.is_valid now = true := by
  simp only [RelationshipStore.get_valid_relationships, findByUser, List.mem_filter,
    decide_eq_true_eq, and_assoc]

/-- The checker answers true exactly when one of the four section-4.G paths
is made of valid tuples (shared characterisation lemma). -/
lemma check_iff_paths (db : RelationshipDb) (now : Nat) (s r o : String)
    (hwf : WellFormed db) :
    PermissionChecker.check db now s r o = true ↔
      ((∃ t ∈ db, t.user = s ∧ t.relation = r ∧ t.object = o ∧ t.is_valid now = true) ∨
       (∃ t ∈ db, t.user = s ∧ t.relation = "has_role" ∧ t.is_valid now = true ∧
          ∃ u ∈ db, u.user = t.object ∧ u.relation = r ∧ u.object = o ∧
            u.is_valid now = true) ∨
       (∃ t ∈ db, t.user = s ∧ t.relation = "member" ∧ t.is_valid now = true ∧
          ∃ u ∈ db, u.user = t.object ∧ u.relation = r ∧ u.object = o ∧
            u.is_valid now = true) ∨
       (∃ t ∈ db, t.user = s ∧ t.relation = "member" ∧ t.is_valid now = true ∧
          ∃ u ∈ db, u.user = t.object ∧ u.relation = "has_role" ∧ u.is_valid now = true ∧
            ∃ v ∈ db, v.user = u.object ∧ v.relation = r ∧ v.object = o ∧
              v.is_valid now = true)) := by
  unfold PermissionChecker.check
  simp only [Bool.or_eq_true, List.any_eq_true, Bool.and_eq_true, beq_iff_eq,
    storeCheck_iff hwf, mem_get_valid]
  constructor
  · rintro (h1 | h2 | h3)
    · exact Or.inl h1
    · obtain ⟨t, ⟨htm, hts, htv⟩, htr, u, hum, huu, hur, huo, huv⟩ := h2
      exact Or.inr (Or.inl ⟨t, htm, hts, htr, htv, u, hum, huu, hur, huo, huv⟩)
    · obtain ⟨t, ⟨htm, hts, htv⟩, htr, hrest⟩ := h3
      rcases hrest with ⟨u, hum, huu, hur, huo, huv⟩ | ⟨g, ⟨hgm, hgu, hgv⟩, hgr, v, hvm, hvu, hvr, hvo, hvv⟩
      · exact Or.inr (Or.inr (Or.inl ⟨t, htm, hts, htr, htv, u, hum, huu, hur, huo, huv⟩))
      · exact Or.inr (Or.inr (Or.inr
          ⟨t, htm, hts, htr, htv, g, hgm, hgu, hgr, hgv, v, hvm, hvu, hvr, hvo, hvv⟩))
  · rintro (h1 | h2 | h3 | h4)
    · exact Or.inl h1
    · obtain ⟨t, htm, hts, htr, htv, u, hum, huu, hur, huo, huv⟩ := h2
      exact Or.inr (Or.inl ⟨t, ⟨htm, hts, htv⟩, htr, u, hum, huu, hur, huo, huv⟩)
    · obtain ⟨t, htm, hts, htr, htv, u, hum, huu, hur, huo, huv⟩ := h3
      exact Or.inr (Or.inr ⟨t, ⟨htm, hts, htv⟩, htr,
        Or.inl ⟨u, hum, huu, hur, huo, huv⟩⟩)
    · obtain ⟨t, htm, hts, htr, htv, u, hum, huu, hur, huv, v, hvm, hvu, hvr, hvo, hvv⟩ := h4
      exact Or.inr (Or.inr ⟨t, ⟨htm, hts, htv⟩, htr,
        Or.inr ⟨u, ⟨hum, huu, huv⟩, hur, v, hvm, hvu, hvr, hvo, hvv⟩⟩)

/-- C1: `check(s, r, o)` returns true if and only if at least one of the four
enumerated paths (direct, user-role, user-group, user-group-role) yields a
valid edge labelled `r` ending at `o`; it is the logical OR of exactly these
paths, so removing every granting path flips the answer to false.  The
hypothesis is the uniqueness invariant enforced by the partial unique index
of the relationships table. -/
theorem check_union_of_four_paths (db : RelationshipDb) (now : Nat) (s r o : String)
    (hwf : WellFormed db) :
    PermissionChecker.check db now s r o = true ↔
      ((∃ t ∈ db, t.user = s ∧ t.relation = r ∧ t.object = o ∧ t.is_valid now = true) ∨
       (∃ t ∈ db, t.user = s ∧ t.relation = "has_role" ∧ t.is_valid now = true ∧
          ∃ u ∈ db, u.user = t.object ∧ u.relation = r ∧ u.object = o ∧
            u.is_valid now = true) ∨
       (∃ t ∈ db, t.user = s ∧ t.relation = "member" ∧ t.is_valid now = true ∧
          ∃ u ∈ db, u.user = t.object ∧ u.relation = r ∧ u.object = o ∧
            u.is_valid now = true) ∨
       (∃ t ∈ db, t.user = s ∧ t.relation = "member" ∧ t.is_valid now = true ∧
          ∃ u ∈ db, u.user = t.object ∧ u.relation = "has_role" ∧ u.is_valid now = true ∧
            ∃ v ∈ db, v.user = u.object ∧ v.relation = r ∧ v.object = o ∧
              v.is_valid now = true)) :=
  check_iff_paths db now s r o hwf

/-- C1 witness: the union characterisation applied to a concrete one-row
table, discharging the uniqueness hypothesis by computation. -/
theorem check_union_of_four_paths_witness :
    PermissionChecker.check [sampleGrant] 5 "user:1" "can_view" "page:dash" = true := by
  have h := check_union_of_four_paths [sampleGrant] 5 "user:1" "can_view" "page:dash"
    (by decide)
  exact h.mpr (Or.inl (by decide))

/-- Computation rule for the repository update when a row with the supplied
id is present. -/
lemma repositoryUpdate_found {db : RelationshipDb} {r x : Relationship}
    (hfind2 : db.find? (fun y => decide (y.id = r.id)) = some x) :
    repositoryUpdate db r =
      .ok (db.map (fun y => if y.id = r.id then applyUpdateColumns y r else y),
           applyUpdateColumns x r) := by
  unfold repositoryUpdate
  rw [hfind2]

/-- Computation rule for the repository update when no row with the supplied
id is present. -/
lemma repositoryUpdate_missing {db : RelationshipDb} {r : Relationship}
    (hfind2 : db.find? (fun y => decide (y.id = r.id)) = none) :
    repositoryUpdate db r = .error (.Database "no rows returned") := by
  unfold repositoryUpdate
  rw [hfind2]

/-- C3 counterexample: the relationship update succeeds although the supplied
version (99) differs from the stored version (5), and the stored version
becomes the supplied 99, not old + 1 - `RELATIONSHIP_UPDATE` matches on
`WHERE id = $1` alone. -/
theorem relationship_update_version_counterexample :
    versionSupplied.version ≠ versionRow.version ∧
    repositoryUpdate [versionRow] versionSupplied = .ok ([versionSupplied], versionSupplied) ∧
    versionSupplied.version ≠ versionRow.version + 1 := by
  refine ⟨by decide, ?_, by decide⟩
  rfl

/-- C3 amended: a relationship update succeeds if and only if a row with the
supplied id exists - the supplied version is never compared against the
stored one - and on success the stored version becomes exactly the supplied
value (the entity-level mutation helpers set that value to old + 1 before
calling update, but the repository enforces nothing). -/
theorem relationship_update_matches_id_only (db : RelationshipDb) (r : Relationship) :
    ((repositoryUpdate db r).isOk = true ↔ ∃ x ∈ db, x.id = r.id) ∧
    (∀ db2 row, repositoryUpdate db r = .ok (db2, row) →
      row.version = r.version ∧ ∀ y ∈ db2, y.id = r.id → y.version = r.version) := by
  constructor
  · cases hfind : db.find? (fun y => decide (y.id = r.id)) with
    | none =>
        rw [repositoryUpdate_missing hfind]
        constructor
        · intro h; simp [Except.isOk, Except.toBool] at h
        · rintro ⟨x, hxm, hxid⟩
          have h0 := List.find?_eq_none.mp hfind x hxm
          simp [hxid] at h0
    | some x =>
        rw [repositoryUpdate_found hfind]
        have hxm := List.mem_of_find?_eq_some hfind
        have hxp := List.find?_some hfind
        simp only [decide_eq_true_eq] at hxp
        simp only [Except.isOk, Except.toBool, true_iff]
        exact ⟨x, hxm, hxp⟩
  · intro db2 row hok
    cases hfind : db.find? (fun y => decide (y.id = r.id)) with
    | none => rw [repositoryUpdate_missing hfind] at hok; exact absurd hok (by simp)
    | some x =>
        rw [repositoryUpdate_found hfind] at hok
        injection hok with hok
        injection hok with hdb hrow
        constructor
        · rw [← hrow]; rfl
        · intro y hym hyid
          rw [← hdb] at hym
          obtain ⟨z, _, hz⟩ := List.mem_map.mp hym
          by_cases hcase : z.id = r.id
          · rw [if_pos hcase] at hz; rw [← hz]; rfl
          · rw [if_neg hcase] at hz
            rw [hz] at hcase
            exact absurd hyid hcase

/-- C3 witness: the amended statement applied to the concrete one-row table,
discharging the success hypothesis by evaluation. -/
theorem relationship_update_matches_id_only_witness :
    versionSupplied.version = 99 ∧
    (repositoryUpdate [versionRow] versionSupplied).isOk = true := by
  have h := relationship_update_matches_id_only [versionRow] versionSupplied
  exact ⟨by decide, h.1.mpr ⟨versionRow, by decide, by decide⟩⟩

/-- Updating a found tuple with a payload carrying its id and a set
`deleted_at` makes the non-deleted lookup on that key come up empty
(uniqueness invariant required). -/
lemma find_none_after_delete_update {db : RelationshipDb} (hwf : WellFormed db)
    {u rel o : String} {t : Relationship}
    (hfind : findByUserObjectRelation db u o rel = some t)
    (r2 : Relationship) (hid : r2.id = t.id) (hdel : r2.deleted_at.isSome = true) :
    findByUserObjectRelation
      (db.map (fun y => if y.id = r2.id then applyUpdateColumns y r2 else y)) u o rel
      = none := by
  have htm := List.mem_of_find?_eq_some hfind
  have htp := List.find?_some hfind
  simp only [decide_eq_true_eq] at htp
  apply List.find?_eq_none.mpr
  intro x hxm
  obtain ⟨y, hym, hy⟩ := List.mem_map.mp hxm
  simp only [decide_eq_true_eq]
  rintro ⟨hxu, hxo, hxr, hxd⟩
  by_cases hcase : y.id = r2.id
  · rw [if_pos hcase] at hy
    rw [← hy] at hxd
    have : (applyUpdateColumns y r2).deleted_at = r2.deleted_at := rfl
    rw [this] at hxd
    rw [hxd] at hdel
    simp at hdel
  · rw [if_neg hcase] at hy
    rw [← hy] at hxu hxo hxr hxd
    have heq : y = t :=
      hwf y hym t htm hxd htp.2.2.2 (hxu.trans htp.1.symm)
        (hxr.trans htp.2.2.1.symm) (hxo.trans htp.2.1.symm)
    rw [heq, ← hid] at hcase
    exact hcase rfl

/-- Computation rule for the store-level soft delete when the tuple is
found. -/
lemma store_soft_delete_eq {db : RelationshipDb} {now : Nat} {u rel o : String}
    {by_ : Option Nat} {t : Relationship}
    (hfind : findByUserObjectRelation db u o rel = some t) :
    RelationshipStore.soft_delete db now u rel o by_ =
      .ok (db.map (fun y => if y.id = (t.soft_delete by_ now).id then
        applyUpdateColumns y (t.soft_delete by_ now) else y)) := by
  unfold RelationshipStore.soft_delete
  rw [hfind]
  dsimp only
  have htm := List.mem_of_find?_eq_some hfind
  have hex : ∃ x ∈ db, (fun x : Relationship =>
      decide (x.id = (t.soft_delete by_ now).id)) x = true :=
    ⟨t, htm, by simp [Relationship.soft_delete]⟩
  rw [← List.find?_isSome] at hex
  cases hfind2 : db.find? (fun x : Relationship =>
      decide (x.id = (t.soft_delete by_ now).id)) with
  | none => rw [hfind2] at hex; simp at hex
  | some x => rw [repositoryUpdate_found hfind2]

/-- C5 counterexample: after soft deleting the only tuple, the
find-by-(subject, object, relation) lookup - which the claim places in the
"all" family - returns nothing, because `RELATIONSHIP_FIND_BY_USER_OBJECT_RELATION`
filters `deleted_at IS NULL`. -/
theorem soft_delete_find_tuple_counterexample :
    RelationshipStore.soft_delete [sampleGrant] 7 "user:1" "can_view" "page:dash" none =
      .ok [sampleGrantDeleted] ∧
    findByUserObjectRelation [sampleGrantDeleted] "user:1" "page:dash" "can_view" = none := by
  exact ⟨rfl, rfl⟩

/-- C5 amended: after `soft_delete(t)` the stored row is invalid at every
instant, hence excluded from every valid-family query; the direct store
check of its edge is false; the all-family find-by-user query still returns
the (now soft-deleted) row; but the find-by-(subject, object, relation)
lookup excludes soft-deleted rows and no longer returns it. -/
theorem soft_delete_invisibility (db : RelationshipDb) (now : Nat)
    (u rel o : String) (by_ : Option Nat) (t : Relationship)
    (hwf : WellFormed db)
    (hfind : findByUserObjectRelation db u o rel = some t) :
    ∃ db2, RelationshipStore.soft_delete db now u rel o by_ = .ok db2 ∧
      (∀ n2, (applyUpdateColumns t (t.soft_delete by_ now)).is_valid n2 = false) ∧
      (∀ n2 x, applyUpdateColumns t (t.soft_delete by_ now) ∉
          RelationshipStore.get_valid_relationships db2 n2 x) ∧
      (∀ n2, RelationshipStore.check db2 n2 u rel o = false) ∧
      applyUpdateColumns t (t.soft_delete by_ now) ∈ findByUser db2 u ∧
      findByUserObjectRelation db2 u o rel = none := by
  have htm := List.mem_of_find?_eq_some hfind
  have htp := List.find?_some hfind
  simp only [decide_eq_true_eq] at htp
  refine ⟨_, store_soft_delete_eq hfind, ?_, ?_, ?_, ?_, ?_⟩
  · intro n2
    simp [applyUpdateColumns, Relationship.soft_delete, Relationship.is_valid]
  · intro n2 x hmem
    have hv := (mem_get_valid.mp hmem).2.2
    simp [applyUpdateColumns, Relationship.soft_delete, Relationship.is_valid] at hv
  · intro n2
    have hnone := find_none_after_delete_update hwf hfind
      (t.soft_delete by_ now) rfl (by simp [Relationship.soft_delete])
    unfold RelationshipStore.check
    rw [hnone]
  · have hne : (applyUpdateColumns t (t.soft_delete by_ now)).user = u := htp.1
    refine List.mem_filter.mpr ⟨?_, by simp [hne]⟩
    refine List.mem_map.mpr ⟨t, htm, ?_⟩
    have hid : t.id = (t.soft_delete by_ now).id := rfl
    rw [if_pos hid]
  · exact find_none_after_delete_update hwf hfind
      (t.soft_delete by_ now) rfl (by simp [Relationship.soft_delete])

/-- C5 witness: the amended statement applied to a concrete one-row table,
discharging the uniqueness and lookup hypotheses by evaluation. -/
theorem soft_delete_invisibility_witness :
    ∃ db2, RelationshipStore.soft_delete [sampleGrant] 7 "user:1" "can_view" "page:dash" none
        = .ok db2 ∧
      (∀ n2, (applyUpdateColumns sampleGrant (sampleGrant.soft_delete none 7)).is_valid n2
        = false) ∧
      (∀ n2 x, applyUpdateColumns sampleGrant (sampleGrant.soft_delete none 7) ∉
          RelationshipStore.get_valid_relationships db2 n2 x) ∧
      (∀ n2, RelationshipStore.check db2 n2 "user:1" "can_view" "page:dash" = false) ∧
      applyUpdateColumns sampleGrant (sampleGrant.soft_delete none 7) ∈ findByUser db2 "user:1" ∧
      findByUserObjectRelation db2 "user:1" "page:dash" "can_view" = none :=
  soft_delete_invisibility [sampleGrant] 7 "user:1" "can_view" "page:dash" none sampleGrant
    (by decide) (by decide)

/-- Entity-level: revoking is field-for-field the same mutation as soft
deleting. -/
lemma Relationship.revoke_eq_soft_delete (r : Relationship) (by_ : Option Nat) (now : Nat) :
    r.revoke by_ now = r.soft_delete by_ now := rfl

/-- C10: `Relationship::revoke` sets `deleted_at` to the current time,
`deleted_by` to the revoker, clears `is_active` and bumps `version`,
coinciding field-for-field with `soft_delete`; the store-level revoke equals
the store-level soft delete, the revoked tuple disappears from the
non-deleted find-by-(subject, object, relation) lookup, and revoking again
is a successful no-op. -/
theorem revoke_indistinguishable_from_soft_delete :
    (∀ (r : Relationship) (by_ : Option Nat) (now : Nat),
       r.revoke by_ now = r.soft_delete by_ now ∧
       (r.revoke by_ now).deleted_at = some now ∧
       (r.revoke by_ now).deleted_by = by_ ∧
       (r.revoke by_ now).is_active = false ∧
       (r.revoke by_ now).version = r.version + 1) ∧
    (∀ (db : RelationshipDb) (now : Nat) (u rel o : String) (by_ : Option Nat),
       RelationshipStore.revoke db now u rel o by_ =
         RelationshipStore.soft_delete db now u rel o by_) ∧
    (∀ (db : RelationshipDb) (now : Nat) (u rel o : String) (by_ : Option Nat)
       (db2 : RelationshipDb) (n2 : Nat) (by2 : Option Nat),
       WellFormed db →
       RelationshipStore.revoke db now u rel o by_ = .ok db2 →
       findByUserObjectRelation db2 u o rel = none ∧
       RelationshipStore.revoke db2 n2 u rel o by2 = .ok db2) := by
  have hstore : ∀ (db : RelationshipDb) (now : Nat) (u rel o : String) (by_ : Option Nat),
      RelationshipStore.revoke db now u rel o by_ =
        RelationshipStore.soft_delete db now u rel o by_ := by
    intro db now u rel o by_
    unfold RelationshipStore.revoke RelationshipStore.soft_delete
    simp only [Relationship.revoke_eq_soft_delete]
  refine ⟨fun r by_ now => ⟨rfl, rfl, rfl, rfl, rfl⟩, hstore, ?_⟩
  intro db now u rel o by_ db2 n2 by2 hwf hok
  have hfind_none : findByUserObjectRelation db2 u o rel = none := by
    cases hfind : findByUserObjectRelation db u o rel with
    | none =>
        unfold RelationshipStore.revoke at hok
        rw [hfind] at hok
        injection hok with hok
        rw [← hok]
        exact hfind
    | some t =>
        rw [hstore, store_soft_delete_eq hfind] at hok
        injection hok with hok
        rw [← hok]
        exact find_none_after_delete_update hwf hfind
          (t.soft_delete by_ now) rfl (by simp [Relationship.soft_delete])
  refine ⟨hfind_none, ?_⟩
  unfold RelationshipStore.revoke
  rw [hfind_none]

/-- C10 witness: the combined statement instantiated on a concrete one-row
table; the second revoke of the already-revoked tuple returns the table
unchanged. -/
theorem revoke_indistinguishable_witness :
    findByUserObjectRelation [sampleGrantDeleted] "user:1" "page:dash" "can_view" = none ∧
    RelationshipStore.revoke [sampleGrantDeleted] 9 "user:1" "can_view" "page:dash" none =
      .ok [sampleGrantDeleted] := by
  have h := revoke_indistinguishable_from_soft_delete.2.2
    [sampleGrant] 7 "user:1" "can_view" "page:dash" none [sampleGrantDeleted] 9 none
    (by decide) (by exact rfl)
  exact h

/-- C6 counterexample: with the single valid tuple
`user:1 -member-> group:g`, `check(user:1, member, group:g)` is true (the
pair is in the closure) but `get_all_permissions(user:1)` is empty - the
direct loop filters out `member` and `has_role` edges, so the returned set
is not the closure. -/
theorem get_all_permissions_counterexample :
    PermissionChecker.check [memberEdge] 5 "user:1" "member" "group:g" = true ∧
    ("member", "group:g") ∉ PermissionChecker.get_all_permissions [memberEdge] 5 "user:1" := by
  exact ⟨rfl, by decide⟩

/-- C6 amended: `get_all_permissions(s)` is sound - every returned
`(relation, object)` pair is granted by `check` - and complete for every
relation other than `member` and `has_role`; pairs of the closure whose
relation is `member` or `has_role` may be omitted (the direct loop filters
them, and group `has_role` edges are traversed rather than reported). -/
theorem get_all_permissions_sound_and_complete_off_membership
    (db : RelationshipDb) (now : Nat) (s : String) (hwf : WellFormed db) :
    (∀ p ∈ PermissionChecker.get_all_permissions db now s,
        PermissionChecker.check db now s p.1 p.2 = true) ∧
    (∀ r o, r ≠ "member" → r ≠ "has_role" →
        PermissionChecker.check db now s r o = true →
        (r, o) ∈ PermissionChecker.get_all_permissions db now s) := by
  constructor
  · rintro ⟨r, o⟩ hp
    unfold PermissionChecker.get_all_permissions at hp
    simp only [List.mem_append, List.mem_flatMap, List.mem_map, List.mem_filter,
      mem_get_valid, Bool.and_eq_true, Bool.not_eq_true', beq_iff_eq, beq_eq_false_iff_ne,
      ne_eq, Prod.mk.injEq] at hp
    apply (check_iff_paths db now s r o hwf).mpr
    rcases hp with (h1 | h2) | h3
    · obtain ⟨t, ⟨⟨htm, hts, htv⟩, -, -⟩, htr, hto⟩ := h1
      exact Or.inl ⟨t, htm, hts, htr, hto, htv⟩
    · obtain ⟨t, ⟨⟨htm, hts, htv⟩, htr⟩, u, ⟨hum, huu, huv⟩, hur, huo⟩ := h2
      exact Or.inr (Or.inl ⟨t, htm, hts, htr, htv, u, hum, huu, hur, huo, huv⟩)
    · obtain ⟨t, ⟨⟨htm, hts, htv⟩, htr⟩, hrest⟩ := h3
      rcases hrest with ⟨u, ⟨⟨hum, huu, huv⟩, -⟩, hur, huo⟩ |
        ⟨u, ⟨⟨hum, huu, huv⟩, hur⟩, v, ⟨hvm, hvu, hvv⟩, hvr, hvo⟩
      · exact Or.inr (Or.inr (Or.inl ⟨t, htm, hts, htr, htv, u, hum, huu, hur, huo, huv⟩))
      · exact Or.inr (Or.inr (Or.inr
          ⟨t, htm, hts, htr, htv, u, hum, huu, hur, huv, v, hvm, hvu, hvr, hvo, hvv⟩))
  · intro r o hrm hrh hcheck
    have hp := (check_iff_paths db now s r o hwf).mp hcheck
    unfold PermissionChecker.get_all_permissions
    simp only [List.mem_append, List.mem_flatMap, List.mem_map, List.mem_filter,
      mem_get_valid, Bool.and_eq_true, Bool.not_eq_true', beq_iff_eq, beq_eq_false_iff_ne,
      ne_eq, Prod.mk.injEq]
    rcases hp with ⟨t, htm, hts, htr, hto, htv⟩ |
      ⟨t, htm, hts, htr, htv, u, hum, huu, hur, huo, huv⟩ |
      ⟨t, htm, hts, htr, htv, u, hum, huu, hur, huo, huv⟩ |
      ⟨t, htm, hts, htr, htv, u, hum, huu, hur, huv, v, hvm, hvu, hvr, hvo, hvv⟩
    · refine Or.inl (Or.inl ⟨t, ⟨⟨htm, hts, htv⟩, ?_, ?_⟩, htr, hto⟩)
      · rw [htr]; exact hrm
      · rw [htr]; exact hrh
    · exact Or.inl (Or.inr ⟨t, ⟨⟨htm, hts, htv⟩, htr⟩, u, ⟨hum, huu, huv⟩, hur, huo⟩)
    · refine Or.inr ⟨t, ⟨⟨htm, hts, htv⟩, htr⟩, Or.inl ⟨u, ⟨⟨hum, huu, huv⟩, ?_⟩, hur, huo⟩⟩
      rw [hur]; exact hrh
    · exact Or.inr ⟨t, ⟨⟨htm, hts, htv⟩, htr⟩,
        Or.inr ⟨u, ⟨⟨hum, huu, huv⟩, hur⟩, v, ⟨hvm, hvu, hvv⟩, hvr, hvo⟩⟩

/-- C6 witness: the amended statement instantiated on the one-row table of
`sampleGrant`; completeness puts the directly granted pair in the result. -/
theorem get_all_permissions_witness :
    ("can_view", "page:dash") ∈
      PermissionChecker.get_all_permissions [sampleGrant] 5 "user:1" := by
  have h := get_all_permissions_sound_and_complete_off_membership [sampleGrant] 5 "user:1"
    (by decide)
  exact h.2 "can_view" "page:dash" (by decide) (by decide) rfl

/-- C9: for every `(entity_type, entity_id)` that has a stored DEK (a
256-bit key that unwraps under the master key) and every plaintext `p`,
decrypting the `(ciphertext, nonce)` pair produced by `encrypt` returns
exactly `p`. -/
theorem dek_round_trip (A : Aead) (mk : MasterKey) (vault : VaultState)
    (entity_id : Nat) (entity_type : String) (dek nonce p : Bytes)
    (hdek : DekManager.get_dek A mk vault entity_id entity_type = .ok (some dek))
    (hlen : dek.length = 32) :
    DekManager.encrypt A mk vault entity_id entity_type nonce p =
      .ok (A.enc dek nonce p, nonce) ∧
    DekManager.decrypt A mk vault entity_id entity_type (A.enc dek nonce p) nonce = .ok p := by
  unfold DekManager.encrypt DekManager.decrypt
  rw [hdek]
  dsimp only
  have hne : ¬ dek.length ≠ 32 := by rw [hlen]; exact fun h => h rfl
  rw [if_neg hne, if_neg hne, A.dec_enc]
  exact ⟨rfl, rfl⟩

/-- C9 witness: the round trip applied to a concrete vault, DEK, nonce and
plaintext, discharging both hypotheses by evaluation. -/
theorem dek_round_trip_witness :
    DekManager.decrypt idAead mk0 vault0 7 "user" (idAead.enc dek0 [3] [9, 9]) [3]
      = .ok [9, 9] := by
  have h := dek_round_trip idAead mk0 vault0 7 "user" dek0 [3] [9, 9] rfl (by decide)
  exact h.2

/-- C2 (code bug): `rotate_master_key` returns the vault unchanged with
`rotated_count = 0` and no errors for every input - the rotation loop body
is empty, so no DEK is unwrapped with the old master key or re-wrapped with
the new one, contradicting the function's own documented process.  The
second conjunct evaluates the code on a vault holding a wrapped DEK. -/
theorem rotate_master_key_is_noop :
    (∀ (vault : VaultState) (old_mk new_mk : MasterKey),
        rotate_master_key vault old_mk new_mk =
          (vault, { rotated_count := 0, errors := [] })) ∧
    rotate_master_key vault0 mk0 ⟨List.replicate 32 2⟩ =
      (vault0, { rotated_count := 0, errors := [] }) ∧
    vault0.getDekRaw 7 "user" = some wrapped0 := by
  exact ⟨fun vault o n => rfl, rfl, rfl⟩

/-- The realm allow-list test is membership in `allowed_realms`. -/
lemma has_realm_access_iff (se : ServiceEncryption) (realm_id : String) :
    se.has_realm_access realm_id = true ↔ realm_id ∈ se.allowed_realms := by
  unfold ServiceEncryption.has_realm_access
  simp only [List.any_eq_true, beq_iff_eq]
  constructor
  · rintro ⟨x, hx, rfl⟩; exact hx
  · intro hx; exact ⟨realm_id, hx, rfl⟩

/-- Unwrapping a stored DEK reports only `Encryption` errors. -/
lemma decrypt_dek_no_authz (A : Aead) (mk : MasterKey) (encrypted : Bytes) (msg : String) :
    DekManager.decrypt_dek A mk encrypted ≠ .error (.Authorization msg) := by
  unfold DekManager.decrypt_dek
  by_cases h1 : encrypted.length < 12
  · rw [if_pos h1]; intro h; simp at h
  · rw [if_neg h1]
    by_cases h2 : mk.key.length ≠ 32
    · rw [if_pos h2]; intro h; simp at h
    · rw [if_neg h2]
      cases A.dec mk.key (encrypted.take 12) (encrypted.drop 12) with
      | some dek => intro h; simp at h
      | none => intro h; simp at h

/-- Fetching a DEK reports only `Encryption` errors. -/
lemma get_dek_no_authz (A : Aead) (mk : MasterKey) (vault : VaultState)
    (entity_id : Nat) (entity_type : String) (msg : String) :
    DekManager.get_dek A mk vault entity_id entity_type ≠ .error (.Authorization msg) := by
  unfold DekManager.get_dek
  cases vault.getDekRaw entity_id entity_type with
  | none => intro h; simp at h
  | some encrypted =>
      dsimp only
      cases hd : DekManager.decrypt_dek A mk encrypted with
      | error e =>
          intro h
          injection h with he
          exact decrypt_dek_no_authz A mk encrypted msg (by rw [hd, he])
      | ok dek => intro h; simp at h

/-- The DEK-manager path reports only `Encryption` errors, never
`Authorization`. -/
lemma get_or_create_dek_no_authz (A : Aead) (mk : MasterKey) (vault : VaultState)
    (freshDek wrapNonce : Bytes) (entity_id : Nat) (entity_type : String) (msg : String) :
    DekManager.get_or_create_dek A mk vault freshDek wrapNonce entity_id entity_type ≠
      .error (.Authorization msg) := by
  unfold DekManager.get_or_create_dek
  cases hg : DekManager.get_dek A mk vault entity_id entity_type with
  | error e =>
      intro h
      injection h with he
      exact get_dek_no_authz A mk vault entity_id entity_type msg (by rw [hg, he])
  | ok od =>
      cases od with
      | some dek => intro h; simp at h
      | none =>
          dsimp only
          unfold DekManager.generate_dek DekManager.encrypt_dek
          by_cases hm : mk.key.length ≠ 32
          · rw [if_pos hm]; intro h; simp at h
          · rw [if_neg hm]; intro h; simp at h

/-- C7: `encrypt_for_realm` and `decrypt_from_realm` fail with an
`Authorization` error exactly when the realm is not in the service's
allow-list; when it is allowed, both proceed with the DEK obtained for the
scoped entity type `realm/<realm_id>`. -/
theorem realm_isolation (A : Aead) (age : AgeCipher) (mk : MasterKey) (vault : VaultState)
    (se : ServiceEncryption) (freshDek wrapNonce : Bytes) (realm_id : String)
    (realm_uuid : Nat) (data encrypted : Bytes) :
    ((∃ msg, ServiceEncryption.encrypt_for_realm A age mk vault se freshDek wrapNonce
        realm_id realm_uuid data = .error (.Authorization msg)) ↔
      realm_id ∉ se.allowed_realms) ∧
    ((∃ msg, ServiceEncryption.decrypt_from_realm A age mk vault se freshDek wrapNonce
        realm_id realm_uuid encrypted = .error (.Authorization msg)) ↔
      realm_id ∉ se.allowed_realms) ∧
    (realm_id ∈ se.allowed_realms →
      (ServiceEncryption.encrypt_for_realm A age mk vault se freshDek wrapNonce
          realm_id realm_uuid data =
        match DekManager.get_or_create_dek A mk vault freshDek wrapNonce realm_uuid
            ("realm/" ++ realm_id) with
        | .error e => .error e
        | .ok (dek, vault2) => .ok (age.enc dek data, vault2)) ∧
      (ServiceEncryption.decrypt_from_realm A age mk vault se freshDek wrapNonce
          realm_id realm_uuid encrypted =
        match DekManager.get_or_create_dek A mk vault freshDek wrapNonce realm_uuid
            ("realm/" ++ realm_id) with
        | .error e => .error e
        | .ok (dek, vault2) =>
            match age.dec dek encrypted with
            | some pt => .ok (pt, vault2)
            | none => .error (.Encryption "Failed to decrypt"))) := by
  by_cases hacc : realm_id ∈ se.allowed_realms
  · have haccb : se.has_realm_access realm_id = true :=
      (has_realm_access_iff se realm_id).mpr hacc
    have hnotfalse : ¬ (se.has_realm_access realm_id = false) := by
      rw [haccb]; intro h; cases h
    refine ⟨⟨?_, fun hno => absurd hacc hno⟩, ⟨?_, fun hno => absurd hacc hno⟩,
      fun _ => ⟨?_, ?_⟩⟩
    · rintro ⟨msg, hmsg⟩
      exfalso
      unfold ServiceEncryption.encrypt_for_realm ServiceEncryption.get_realm_dek at hmsg
      rw [if_neg hnotfalse] at hmsg
      unfold DekManager.get_realm_dek at hmsg
      cases hres : DekManager.get_or_create_dek A mk vault freshDek wrapNonce realm_uuid
          ("realm/" ++ realm_id) with
      | error e =>
          rw [hres] at hmsg
          dsimp only at hmsg
          injection hmsg with he
          exact get_or_create_dek_no_authz A mk vault freshDek wrapNonce realm_uuid
            ("realm/" ++ realm_id) msg (by rw [hres, he])
      | ok p =>
          rw [hres] at hmsg
          rcases p with ⟨dek, vault2⟩
          simp at hmsg
    · rintro ⟨msg, hmsg⟩
      exfalso
      unfold ServiceEncryption.decrypt_from_realm ServiceEncryption.get_realm_dek at hmsg
      rw [if_neg hnotfalse] at hmsg
      unfold DekManager.get_realm_dek at hmsg
      cases hres : DekManager.get_or_create_dek A mk vault freshDek wrapNonce realm_uuid
          ("realm/" ++ realm_id) with
      | error e =>
          rw [hres] at hmsg
          dsimp only at hmsg
          injection hmsg with he
          exact get_or_create_dek_no_authz A mk vault freshDek wrapNonce realm_uuid
            ("realm/" ++ realm_id) msg (by rw [hres, he])
      | ok p =>
          rw [hres] at hmsg
          rcases p with ⟨dek, vault2⟩
          dsimp only at hmsg
          cases hdec : age.dec dek encrypted with
          | some pt => rw [hdec] at hmsg; simp at hmsg
          | none => rw [hdec] at hmsg; simp at hmsg
    · unfold ServiceEncryption.encrypt_for_realm ServiceEncryption.get_realm_dek
      rw [if_neg hnotfalse]
      unfold DekManager.get_realm_dek
      rfl
    · unfold ServiceEncryption.decrypt_from_realm ServiceEncryption.get_realm_dek
      rw [if_neg hnotfalse]
      unfold DekManager.get_realm_dek
      rfl
  · have haccb : se.has_realm_access realm_id = false := by
      cases hb : se.has_realm_access realm_id with
      | false => rfl
      | true => exact absurd ((has_realm_access_iff se realm_id).mp hb) hacc
    refine ⟨⟨fun _ => hacc, fun _ => ⟨"Service '" ++ se.service_id ++
        "' not authorized to access realm '" ++ realm_id ++ "'", ?_⟩⟩,
      ⟨fun _ => hacc, fun _ => ⟨"Service '" ++ se.service_id ++
        "' not authorized to access realm '" ++ realm_id ++ "'", ?_⟩⟩,
      fun hmem => absurd hmem hacc⟩
    · unfold ServiceEncryption.encrypt_for_realm ServiceEncryption.get_realm_dek
      rw [if_pos haccb]
    · unfold ServiceEncryption.decrypt_from_realm ServiceEncryption.get_realm_dek
      rw [if_pos haccb]

/-- C7 witness: the isolation statement applied to a service allow-listed
for realm `A` - realm `B` fails with `Authorization`, realm `A` does not. -/
theorem realm_isolation_witness :
    (∃ msg, ServiceEncryption.encrypt_for_realm idAead age0 mk0 vault0 se0 dek0 [0]
        "B" 9 [1] = .error (.Authorization msg)) ∧
    ¬ (∃ msg, ServiceEncryption.encrypt_for_realm idAead age0 mk0 vault0 se0 dek0 [0]
        "A" 9 [1] = .error (.Authorization msg)) := by
  have hB := realm_isolation idAead age0 mk0 vault0 se0 dek0 [0] "B" 9 [1] [1]
  have hA := realm_isolation idAead age0 mk0 vault0 se0 dek0 [0] "A" 9 [1] [1]
  exact ⟨hB.1.mpr (by decide), fun hx => (hA.1.mp hx) (by decide)⟩

/-- C4 counterexample: with `default` already stored (so this is not the
initial seeding), `set_policy` on a policy named `default` succeeds instead
of returning the conflict error - the immutability guard exempts `default`
entirely (`&& name != "default"`). -/
theorem set_default_policy_counterexample :
    (policyState0.db.find? (fun r => r.name == "default")).isSome = true ∧
    (PolicyStore.set_policy policyState0 defaultPolicy0).isOk = true := by
  exact ⟨rfl, rfl⟩

/-- C4 amended: after lowercasing and trimming, `set_policy` on `root` and
`delete_policy` on `root` or `default` return the conflict error, but
`set_policy` on `default` always succeeds - not only during the initial
seeding. -/
theorem immutable_policy_mutation (st : PolicyStoreState) (p : Policy) (name : String) :
    (sanitize_name p.name = "root" →
      PolicyStore.set_policy st p = .error (.Vault "cannot update root policy")) ∧
    (sanitize_name p.name = "default" →
      (PolicyStore.set_policy st p).isOk = true) ∧
    (sanitize_name name = "root" →
      PolicyStore.delete_policy st name = .error (.Vault "cannot delete root policy")) ∧
    (sanitize_name name = "default" →
      PolicyStore.delete_policy st name = .error (.Vault "cannot delete default policy")) := by
  refine ⟨?_, ?_, ?_, ?_⟩
  · intro h
    unfold PolicyStore.set_policy
    rw [h]
    rfl
  · intro h
    unfold PolicyStore.set_policy
    rw [h]
    rfl
  · intro h
    unfold PolicyStore.delete_policy
    rw [h]
    rfl
  · intro h
    unfold PolicyStore.delete_policy
    rw [h]
    rfl

/-- C4 witness: the amended statement applied to a concrete store,
discharging the name hypotheses by evaluation. -/
theorem immutable_policy_mutation_witness :
    PolicyStore.set_policy policyState0 rootMarkerPolicy =
      .error (.Vault "cannot update root policy") ∧
    PolicyStore.delete_policy policyState0 "Default " =
      .error (.Vault "cannot delete default policy") := by
  have h := immutable_policy_mutation policyState0 rootMarkerPolicy "Default "
  exact ⟨h.1 (by decide), h.2.2.2 (by decide)⟩

/-- The policy loop fails with the root-conflict error whenever a `root`
policy is present, every type is valid, and the total policy count is not
one. -/
lemma newLoop_root_error (total : Nat) (hne : total ≠ 1) :
    ∀ (ps : List Policy) (acl : ACL), (∃ p ∈ ps, p.name = "root") →
      (∀ q ∈ ps, q.policy_type = .Acl ∨ q.policy_type = .Token) →
      ACL.newLoop total acl ps = .error (.Vault "other policies present along with root")
  | [], _, hex, _ => by
      obtain ⟨p, hp, _⟩ := hex
      exact absurd hp (List.not_mem_nil p)
  | q :: rest, acl, hex, htypes => by
      unfold ACL.newLoop
      have hqt := htypes q (List.mem_cons_self q rest)
      rw [if_neg (by rcases hqt with h | h <;> simp [h])]
      by_cases hq : q.name = "root"
      · rw [if_pos hq, if_pos hne]
      · rw [if_neg hq]
        obtain ⟨p, hp, hpn⟩ := hex
        have hprest : p ∈ rest := by
          cases List.mem_cons.mp hp with
          | inl h => exact absurd (h ▸ hpn) hq
          | inr h => exact h
        exact newLoop_root_error total hne rest (ACL.insertPolicyPaths acl q.paths)
          ⟨p, hprest, hpn⟩ (fun r hr => htypes r (List.mem_cons_of_mem q hr))

/-- C8: compiling the single policy named `root` (of a valid policy type)
yields the allow-all ACL - every `(operation, path)` request gets
`allowed = true`, `root_privs = true`, `is_root = true` - and compiling
`root` together with any other policy fails with the conflict
(`PolicyConflict`) error. -/
theorem root_policy_allow_all_and_exclusive :
    (∀ (p : Policy), p.name = "root" → (p.policy_type = .Acl ∨ p.policy_type = .Token) →
      ACL.new [p] = .ok { ACL.empty with root := true } ∧
      ∀ (req : Request) (check_only : Bool),
        ACL.allow_operation { ACL.empty with root := true } req check_only =
          .ok { allowed := true, root_privs := true, is_root := true,
                capabilities_bitmap := 0, granting_policies := ["root"] }) ∧
    (∀ (ps : List Policy) (p : Policy), p ∈ ps → p.name = "root" →
      (∀ q ∈ ps, q.policy_type = .Acl ∨ q.policy_type = .Token) →
      ps.length ≠ 1 →
      ACL.new ps = .error (.Vault "other policies present along with root")) := by
  constructor
  · intro p hname htype
    constructor
    · unfold ACL.new ACL.newLoop
      rw [if_neg (by rcases htype with h | h <;> simp [h]), if_pos hname,
        if_neg (by simp)]
    · intro req check_only
      rfl
  · intro ps p hp hname htypes hlen
    exact newLoop_root_error ps.length hlen ps ACL.empty ⟨p, hp, hname⟩ htypes

/-- C8 witness: the statement applied to the concrete marker policy - the
singleton compilation is the allow-all ACL and adding a second policy fails
with the conflict error. -/
theorem root_policy_exclusivity_witness :
    ACL.new [rootMarkerPolicy] = .ok { ACL.empty with root := true } ∧
    ACL.new [otherAclPolicy, rootMarkerPolicy] =
      .error (.Vault "other policies present along with root") := by
  have h := root_policy_allow_all_and_exclusive
  refine ⟨(h.1 rootMarkerPolicy rfl (Or.inl rfl)).1, ?_⟩
  exact h.2 [otherAclPolicy, rootMarkerPolicy] rootMarkerPolicy (by decide) rfl
    (by decide) (by decide)

end HealthV1
